import Mathlib

/-!
Shallow embedding of the hwmon-lx discovery-and-classification engine.

Sources embedded:
- `src/src/subfeature.rs`: subfeature kind enums, the per-feature suffix
  tables, `FEATURE_TYPE_MAP`, and `Subfeature::get_properties_from_name`.
- `src/src/chip.rs`: `Chip::name`, `get_chip_bus_from_name`,
  `Chip::read_dynamic_chip`.
- `src/hwmon/src/feature.rs`: `FeatureType`, `From<SubfeatureType>`,
  `Feature::new`, `Feature::push_subfeature`, `Feature::subfeature`.
- `src/src/bus.rs`: `BusAdapter::from_sysfs_i2c`, `read_sysfs_busses`,
  `Bus::adapter_name`.

Modelling conventions: attribute names are ASCII (the regex classes `\D`/`\d`
are modelled as ASCII non-digit/digit via `Char.isDigit`); Rust `u32`/`i16`
are `Nat`/`Int` with explicit bounds (`2 ^ 32`, `±2 ^ 15`) where overflow or
parse bounds matter; a Rust panic (`.unwrap()` on an `Err`) is a dedicated
result constructor; filesystem access is passed in explicitly (directory
listings as lists, attribute reads as `Option String` oracles).
-/

set_option maxRecDepth 4096

namespace Hw

/-- `Fan` subfeature kinds (src/src/subfeature.rs, `enum Fan`). -/
inductive Fan where
  | Input | Min | Max | Div | Pulses | Target
  | Alarm | Min_Alarm | Max_Alarm | Fault | Beep
  deriving DecidableEq, Repr

/-- `Temperature` subfeature kinds (src/src/subfeature.rs, `enum Temperature`).
The source variant `Type` is a Lean keyword and is rendered `Typ`. -/
inductive Temperature where
  | Input | Min | Min_Hyst | Max | Max_Hyst
  | Crit_Min | Crit_Min_Hyst | Crit_Max | Crit_Max_Hyst
  | Emergency | Emergency_Hyst | Lowest | Highest | Typ | Offset
  | Alarm | Min_Alarm | Max_Alarm | Emergency_Alarm
  | Crit_Min_Alarm | Crit_Max_Alarm | Fault | Beep
  deriving DecidableEq, Repr

/-- `Voltage` subfeature kinds (src/src/subfeature.rs, `enum Voltage`). -/
inductive Voltage where
  | Input | Min | Max | Crit_Min | Crit_Max | Average | Lowest | Highest
  | Alarm | Min_Alarm | Max_Alarm | Crit_Min_Alarm | Crit_Max_Alarm | Beep
  deriving DecidableEq, Repr

/-- `Current` subfeature kinds (src/src/subfeature.rs, `enum Current`). -/
inductive Current where
  | Input | Min | Max | Crit_Min | Crit_Max | Average | Lowest | Highest
  | Alarm | Min_Alarm | Max_Alarm | Crit_Min_Alarm | Crit_Max_Alarm | Beep
  deriving DecidableEq, Repr

/-- `Power` subfeature kinds (src/src/subfeature.rs, `enum Power`). -/
inductive Power where
  | Average | Average_Lowest | Average_Highest
  | Input | Input_Lowest | Input_Highest
  | Cap | Cap_Min | Cap_Max | Cap_Hyst
  | Min | Max | Crit_Min | Crit_Max | Average_Interval | Accuracy
  | Alarm | Cap_Alarm | Min_Alarm | Max_Alarm | Crit_Min_Alarm | Crit_Max_Alarm
  deriving DecidableEq, Repr

/-- `Energy` subfeature kinds (src/src/subfeature.rs, `enum Energy`). -/
inductive Energy where
  | Input
  deriving DecidableEq, Repr

/-- `Humidity` subfeature kinds (src/src/subfeature.rs, `enum Humidity`). -/
inductive Humidity where
  | Input
  deriving DecidableEq, Repr

/-- `Intrusion` subfeature kinds (src/src/subfeature.rs, `enum Intrusion`). -/
inductive Intrusion where
  | Alarm | Beep
  deriving DecidableEq, Repr

/-- `SubfeatureType` (src/src/subfeature.rs): tagged union over the
per-feature kind enums plus the atomic `Cpu` and `BeepEnable` kinds. -/
inductive SubfeatureType where
  | Fan : Hw.Fan → SubfeatureType
  | Temperature : Hw.Temperature → SubfeatureType
  | Voltage : Hw.Voltage → SubfeatureType
  | Current : Hw.Current → SubfeatureType
  | Power : Hw.Power → SubfeatureType
  | Energy : Hw.Energy → SubfeatureType
  | Humidity : Hw.Humidity → SubfeatureType
  | Cpu : SubfeatureType
  | Intrusion : Hw.Intrusion → SubfeatureType
  | BeepEnable : SubfeatureType
  deriving DecidableEq, Repr

/-- `FeatureType` (src/hwmon/src/feature.rs). -/
inductive FeatureType where
  | Fan | Pwm | Temperature | Voltage | Current | Power | Energy
  | Humidity | Cpu | Intrusion | BeepEnable
  deriving DecidableEq, Repr

/-- `impl From<SubfeatureType> for FeatureType` (src/hwmon/src/feature.rs).
The source also maps a `SubfeatureType::Pwm(_)` arm; that variant belongs to
the hwmon crate's subfeature module, which is absent from this snapshot, so
the embedded `SubfeatureType` (from src/src/subfeature.rs) has no such
variant and the arm is dead here. -/
def FeatureType.from_sf : SubfeatureType → FeatureType
  | .Fan _ => .Fan
  | .Temperature _ => .Temperature
  | .Voltage _ => .Voltage
  | .Current _ => .Current
  | .Power _ => .Power
  | .Energy _ => .Energy
  | .Humidity _ => .Humidity
  | .Cpu => .Cpu
  | .Intrusion _ => .Intrusion
  | .BeepEnable => .BeepEnable

/-- Association-list lookup, modelling `HashMap::get` on string keys
(all embedded tables have pairwise-distinct keys, so order is irrelevant). -/
def lookupTable {α : Type} (m : List (String × α)) (k : String) : Option α :=
  (m.find? (fun p => p.1 == k)).map (fun p => p.2)

/-- `FAN_MAP` (src/src/subfeature.rs). -/
def FAN_MAP : List (String × SubfeatureType) :=
  [("input", .Fan .Input), ("min", .Fan .Min), ("max", .Fan .Max),
   ("div", .Fan .Div), ("pulses", .Fan .Pulses), ("target", .Fan .Target),
   ("alarm", .Fan .Alarm), ("min_alarm", .Fan .Min_Alarm),
   ("max_alarm", .Fan .Max_Alarm), ("fault", .Fan .Fault), ("beep", .Fan .Beep)]

/-- `TEMPERATURE_MAP` (src/src/subfeature.rs). -/
def TEMPERATURE_MAP : List (String × SubfeatureType) :=
  [("input", .Temperature .Input), ("max", .Temperature .Max),
   ("max_hyst", .Temperature .Max_Hyst), ("min", .Temperature .Min),
   ("min_hyst", .Temperature .Min_Hyst), ("crit", .Temperature .Crit_Max),
   ("crit_hyst", .Temperature .Crit_Max_Hyst),
   ("lcrit", .Temperature .Crit_Min),
   ("lcrit_hyst", .Temperature .Crit_Min_Hyst),
   ("emergency", .Temperature .Emergency),
   ("emergency_hyst", .Temperature .Emergency_Hyst),
   ("lowest", .Temperature .Lowest), ("highest", .Temperature .Highest),
   ("alarm", .Temperature .Alarm), ("min_alarm", .Temperature .Min_Alarm),
   ("max_alarm", .Temperature .Max_Alarm),
   ("crit_alarm", .Temperature .Crit_Max_Alarm),
   ("emergency_alarm", .Temperature .Emergency_Alarm),
   ("lcrit_alarm", .Temperature .Crit_Min_Alarm),
   ("fault", .Temperature .Fault), ("type", .Temperature .Typ),
   ("offset", .Temperature .Offset), ("beep", .Temperature .Beep)]

/-- `VOLTAGE_MAP` (src/src/subfeature.rs). -/
def VOLTAGE_MAP : List (String × SubfeatureType) :=
  [("input", .Voltage .Input), ("min", .Voltage .Min), ("max", .Voltage .Max),
   ("lcrit", .Voltage .Crit_Min), ("crit", .Voltage .Crit_Max),
   ("average", .Voltage .Average), ("lowest", .Voltage .Lowest),
   ("highest", .Voltage .Highest), ("alarm", .Voltage .Alarm),
   ("min_alarm", .Voltage .Min_Alarm), ("max_alarm", .Voltage .Max_Alarm),
   ("lcrit_alarm", .Voltage .Crit_Min_Alarm),
   ("crit_alarm", .Voltage .Crit_Max_Alarm), ("beep", .Voltage .Beep)]

/-- `CURRENT_MAP` (src/src/subfeature.rs). -/
def CURRENT_MAP : List (String × SubfeatureType) :=
  [("input", .Current .Input), ("min", .Current .Min), ("max", .Current .Max),
   ("lcrit", .Current .Crit_Min), ("crit", .Current .Crit_Max),
   ("average", .Current .Average), ("lowest", .Current .Lowest),
   ("highest", .Current .Highest), ("alarm", .Current .Alarm),
   ("min_alarm", .Current .Min_Alarm), ("max_alarm", .Current .Max_Alarm),
   ("lcrit_alarm", .Current .Crit_Min_Alarm),
   ("crit_alarm", .Current .Crit_Max_Alarm), ("beep", .Current .Beep)]

/-- `POWER_MAP` (src/src/subfeature.rs). -/
def POWER_MAP : List (String × SubfeatureType) :=
  [("average", .Power .Average), ("average_highest", .Power .Average_Highest),
   ("average_lowest", .Power .Average_Lowest), ("input", .Power .Input),
   ("input_highest", .Power .Input_Highest),
   ("input_lowest", .Power .Input_Lowest), ("accuracy", .Power .Accuracy),
   ("cap", .Power .Cap), ("cap_hyst", .Power .Cap_Hyst),
   ("cap_max", .Power .Cap_Max), ("cap_min", .Power .Cap_Min),
   ("cap_alarm", .Power .Cap_Alarm), ("alarm", .Power .Alarm),
   ("max", .Power .Max), ("min", .Power .Min),
   ("max_alarm", .Power .Max_Alarm), ("min_alarm", .Power .Min_Alarm),
   ("crit", .Power .Crit_Max), ("lcrit", .Power .Crit_Min),
   ("crit_alarm", .Power .Crit_Max_Alarm),
   ("lcrit_alarm", .Power .Crit_Min_Alarm),
   ("average_interval", .Power .Average_Interval)]

/-- `ENERGY_MAP` (src/src/subfeature.rs). -/
def ENERGY_MAP : List (String × SubfeatureType) := [("input", .Energy .Input)]

/-- `HUMIDITY_MAP` (src/src/subfeature.rs). -/
def HUMIDITY_MAP : List (String × SubfeatureType) :=
  [("input", .Humidity .Input)]

/-- `CPU_MAP` (src/src/subfeature.rs). -/
def CPU_MAP : List (String × SubfeatureType) := [("vid", .Cpu)]

/-- `INTRUSION_MAP` (src/src/subfeature.rs). -/
def INTRUSION_MAP : List (String × SubfeatureType) :=
  [("alarm", .Intrusion .Alarm), ("beep", .Intrusion .Beep)]

/-- `FEATURE_TYPE_MAP` (src/src/subfeature.rs): feature-kind tag to
feature type and suffix table. -/
def FEATURE_TYPE_MAP :
    List (String × (FeatureType × List (String × SubfeatureType))) :=
  [("temp", (.Temperature, TEMPERATURE_MAP)),
   ("in", (.Voltage, VOLTAGE_MAP)),
   ("fan", (.Fan, FAN_MAP)),
   ("cpu", (.Cpu, CPU_MAP)),
   ("power", (.Power, POWER_MAP)),
   ("curr", (.Current, CURRENT_MAP)),
   ("energy", (.Energy, ENERGY_MAP)),
   ("intrusion", (.Intrusion, INTRUSION_MAP)),
   ("humidity", (.Humidity, HUMIDITY_MAP))]

/-- Split of the anchored match of `^(\D*)(\d+)_(.*)` against a name
(`Subfeature::get_properties_from_name`, src/src/subfeature.rs:578).
A successful match is forced: capture 1 is the maximal non-digit run from
the start, capture 2 the maximal digit run after it, the next character must
be `_`, and capture 3 (`.` does not match a newline) is the remainder up to
the first newline. Returns `none` when the regex does not match. -/
def nameShape (s : List Char) :
    Option (List Char × List Char × List Char) :=
  let a := s.takeWhile (fun c => !c.isDigit)
  let r1 := s.dropWhile (fun c => !c.isDigit)
  let d := r1.takeWhile (fun c => c.isDigit)
  let r2 := r1.dropWhile (fun c => c.isDigit)
  match d, r2 with
  | [], _ => none
  | _ :: _, '_' :: rest => some (a, d, rest.takeWhile (fun c => c != '\n'))
  | _ :: _, _ => none

/-- Value of a run of decimal ASCII digit characters (most significant
first), as accumulated by `str::parse::<u32>`. -/
def digitsVal (s : List Char) : Nat :=
  s.foldl (fun acc c => 10 * acc + (c.toNat - 48)) 0

/-- Result of `Subfeature::get_properties_from_name`: success, the two
error messages, or a Rust panic (the `.unwrap()` on
`caps[2].parse::<u32>()`, which fails when the digit run's value exceeds
`u32::MAX`). -/
inductive ClassifyResult where
  | ok : Nat → SubfeatureType → ClassifyResult
  | unknown : ClassifyResult
  | invalid : ClassifyResult
  | panicked : ClassifyResult
  deriving DecidableEq, Repr

/-- `Subfeature::get_properties_from_name` (src/src/subfeature.rs:573-596). -/
def get_properties_from_name (name : String) : ClassifyResult :=
  if name = "beep_enable" then .ok 0 .BeepEnable
  else
    match nameShape name.data with
    | none => .invalid
    | some (a, d, r) =>
      if digitsVal d < 2 ^ 32 then
        match lookupTable FEATURE_TYPE_MAP (String.mk a) with
        | none => .unknown
        | some (_, sfMap) =>
          match lookupTable sfMap (String.mk r) with
          | none => .unknown
          | some t => .ok (digitsVal d) t
      else .panicked

/-- Digit rendering in a radix, most significant digit first, prepended to
an accumulator; structural on the fuel so that it evaluates by kernel
reduction.  `fuel = n + 1` always suffices since the argument shrinks by a
factor of the radix (≥ 10) each step. -/
def digitsAux (radix : Nat) : Nat → Nat → List Char → List Char
  | 0, _, acc => acc
  | fuel + 1, n, acc =>
    if n < radix then Nat.digitChar n :: acc
    else digitsAux radix fuel (n / radix) (Nat.digitChar (n % radix) :: acc)

/-- Decimal rendering of a natural number, most significant digit first —
the output of Rust's `{}` formatting for unsigned integers. -/
def decRepr (n : Nat) : List Char := digitsAux 10 (n + 1) n []

/-- String form of `decRepr`. -/
def decReprStr (n : Nat) : String := String.mk (decRepr n)

/-- Lowercase hexadecimal rendering, the output of Rust's `{:x}`. -/
def hexRepr (n : Nat) : List Char := digitsAux 16 (n + 1) n []

/-- String form of `hexRepr`. -/
def hexStr (n : Nat) : String := String.mk (hexRepr n)

/-- Left zero-padding to a minimum width, as in Rust's `{:04x}`/`{:02x}`. -/
def padZero (w : Nat) (s : String) : String :=
  if s.length < w then String.mk (List.replicate (w - s.length) '0') ++ s
  else s

/-- Decimal rendering of a signed integer (Rust `{}` on `i16`). -/
def intStr (i : Int) : String :=
  if i < 0 then "-" ++ decReprStr i.natAbs else decReprStr i.natAbs

/-- `str::starts_with` on strings (via the underlying character lists, so
that it evaluates by kernel reduction). -/
def strStartsWith (s p : String) : Bool :=
  decide (s.data.take p.data.length = p.data)

/-- `BusType` (src/src/bus.rs). -/
inductive BusType where
  | I2C | ISA | PCI | SPI | Virtual | ACPI | HID | Mdio | SCSI
  deriving DecidableEq, Repr

/-- `Chip::name` (src/src/chip.rs:59-91), as a function of the chip's
prefix, bus type, bus number and address. -/
def chip_name (pfx : String) (bt : BusType) (bus_number : Int)
    (address : Nat) : String :=
  match bt with
  | .ISA => pfx ++ "-isa-" ++ padZero 4 (hexStr address)
  | .PCI => pfx ++ "-pci-" ++ padZero 4 (hexStr address)
  | .I2C => pfx ++ "-i2C-" ++ intStr bus_number ++ "-" ++ padZero 2 (hexStr address)
  | .SPI => pfx ++ "-spi-" ++ intStr bus_number ++ "-" ++ hexStr address
  | .HID => pfx ++ "-hid-" ++ intStr bus_number ++ "-" ++ hexStr address
  | .ACPI => pfx ++ "-acpi-" ++ hexStr address
  | .Mdio => pfx ++ "-mdio-" ++ hexStr address
  | .SCSI => pfx ++ "-scsi-" ++ intStr bus_number ++ "-" ++ hexStr address
  | .Virtual => pfx ++ "-virtual-" ++ hexStr address

/-- Digit value of a character as in Rust's `char::to_digit`. -/
def charDigit (c : Char) : Option Nat :=
  if c.isDigit then some (c.toNat - 48)
  else if 'a' ≤ c ∧ c ≤ 'z' then some (c.toNat - 87)
  else if 'A' ≤ c ∧ c ≤ 'Z' then some (c.toNat - 55)
  else none

/-- Accumulate a digit run in the given radix (the loop of Rust's
`from_str_radix`). -/
def accDigits (radix : Nat) (acc : Nat) : List Char → Option Nat
  | [] => some acc
  | c :: cs =>
    match charDigit c with
    | some d => if d < radix then accDigits radix (acc * radix + d) cs else none
    | none => none

/-- Parse an unsigned digit run with an exclusive upper bound.  Rust's
per-step `checked_mul`/`checked_add` overflow test is equivalent to the
final-value bound test because the accumulated value is monotone. -/
def parseUnsignedRadix (radix bound : Nat) (s : List Char) : Option Nat :=
  if s = [] then none
  else
    match accDigits radix 0 s with
    | some v => if v < bound then some v else none
    | none => none

/-- `u32::from_str_radix` (an optional `+` sign is accepted; a `-` sign
succeeds only when the digits are all zero). -/
def from_str_radix_u32 (radix : Nat) (s : List Char) : Option Nat :=
  match s with
  | [] => none
  | c :: rest =>
    if c = '+' then parseUnsignedRadix radix (2 ^ 32) rest
    else if c = '-' then
      match parseUnsignedRadix radix (2 ^ 32) rest with
      | some v => if v = 0 then some 0 else none
      | none => none
    else parseUnsignedRadix radix (2 ^ 32) (c :: rest)

/-- `i16::from_str` (decimal, optional sign, bounds `-32768..=32767`). -/
def from_str_i16 (s : List Char) : Option Int :=
  match s with
  | [] => none
  | c :: rest =>
    if c = '+' then (parseUnsignedRadix 10 32768 rest).map Int.ofNat
    else if c = '-' then (parseUnsignedRadix 10 32769 rest).map (fun v => -(v : Int))
    else (parseUnsignedRadix 10 32768 (c :: rest)).map Int.ofNat

/-- `str::split(sep)`: split at every separator, keeping empty pieces. -/
def splitSep (sep : Char) : List Char → List (List Char)
  | [] => [[]]
  | c :: cs =>
    if c = sep then [] :: splitSep sep cs
    else
      match splitSep sep cs with
      | h :: t => (c :: h) :: t
      | [] => [[c]]

/-- `ChipError` (src/src/error.rs). -/
inductive ChipErr where
  | io : ChipErr
  | parseBusInfo : BusType → ChipErr
  | parseIntE : ChipErr
  | unknownDevice : ChipErr
  deriving DecidableEq, Repr

/-- 32-bit wrapping addition (release-mode Rust `+` on `u32`). -/
def wadd32 (a b : Nat) : Nat := (a + b) % 2 ^ 32

/-- 32-bit truncating left shift (Rust `<<` on `u32`). -/
def wshl32 (a k : Nat) : Nat := (a * 2 ^ k) % 2 ^ 32

/-- The `"i2c"` arm of `get_chip_bus_from_name` (src/src/chip.rs:187-213).
`adapterNameOf bn` stands for the attempt to read
`/sys/class/i2c-adapter/i2c-<bn>/device/name`: `none` means the open failed
(the chip stays on the I2C bus), `some none` a read failure (propagated as
an I/O error), `some (some s)` the file content `s`. -/
def classify_i2c (device_name : String)
    (adapterNameOf : Int → Option (Option String)) :
    Except ChipErr (BusType × Int × Nat) :=
  match (splitSep '-' device_name.data).get? 0 with
  | none => .error (.parseBusInfo .SCSI)
  | some a0 =>
    match from_str_i16 a0 with
    | none => .error .parseIntE
    | some bn =>
      match (splitSep '-' device_name.data).get? 1 with
      | none => .error (.parseBusInfo .SCSI)
      | some a1 =>
        match from_str_radix_u32 16 a1 with
        | none => .error .parseIntE
        | some address =>
          if bn = 9191 then .ok (.ISA, 0, address)
          else
            match adapterNameOf bn with
            | none => .ok (.I2C, bn, address)
            | some none => .error .io
            | some (some content) =>
              if content = "ISA" then .ok (.ISA, 0, address)
              else .ok (.I2C, bn, address)

/-- The `"spi"` arm of `get_chip_bus_from_name` (src/src/chip.rs:214-227). -/
def classify_spi (device_name : String) :
    Except ChipErr (BusType × Int × Nat) :=
  if !(strStartsWith device_name "spi" && decide (device_name.length > 3)) then
    .error (.parseBusInfo .SPI)
  else
    match (splitSep '.' (device_name.drop 3).data).get? 1 with
    | none => .error (.parseBusInfo .SPI)
    | some a1 =>
      match from_str_radix_u32 10 a1 with
      | none => .error .parseIntE
      | some address =>
        match (splitSep '.' (device_name.drop 3).data).get? 0 with
        | none => .error (.parseBusInfo .SPI)
        | some a0 =>
          match from_str_i16 a0 with
          | none => .error .parseIntE
          | some bn => .ok (.SPI, bn, address)

/-- The `"pci"` arm of `get_chip_bus_from_name` (src/src/chip.rs:228-242).
The composite address uses the `u32` wrapping shift/add semantics. -/
def classify_pci (device_name : String) :
    Except ChipErr (BusType × Int × Nat) :=
  match (splitSep ':' device_name.data).getLast? with
  | none => .error (.parseBusInfo .PCI)
  | some lastArg =>
    match (splitSep ':' device_name.data).get? 0 with
    | none => .error (.parseBusInfo .SCSI)
    | some a0 =>
      match from_str_radix_u32 16 a0 with
      | none => .error .parseIntE
      | some domain =>
        match (splitSep ':' device_name.data).get? 1 with
        | none => .error (.parseBusInfo .SCSI)
        | some a1 =>
          match from_str_radix_u32 16 a1 with
          | none => .error .parseIntE
          | some pbus =>
            match (splitSep '.' lastArg).get? 0 with
            | none => .error (.parseBusInfo .SCSI)
            | some b0 =>
              match from_str_radix_u32 16 b0 with
              | none => .error .parseIntE
              | some slot =>
                match (splitSep '.' lastArg).get? 1 with
                | none => .error (.parseBusInfo .SCSI)
                | some b1 =>
                  match from_str_radix_u32 16 b1 with
                  | none => .error .parseIntE
                  | some fnum =>
                    .ok (.PCI, 0,
                      wadd32 (wadd32 (wadd32 (wshl32 domain 16)
                        (wshl32 pbus 8)) (wshl32 slot 3)) fnum)

/-- The `"scsi"` arm of `get_chip_bus_from_name` (src/src/chip.rs:243-258). -/
def classify_scsi (device_name : String) :
    Except ChipErr (BusType × Int × Nat) :=
  match (splitSep ':' device_name.data).get? 1 with
  | none => .error (.parseBusInfo .SCSI)
  | some a1 =>
    match from_str_radix_u32 10 a1 with
    | none => .error .parseIntE
    | some sbus =>
      match (splitSep ':' device_name.data).get? 2 with
      | none => .error (.parseBusInfo .SCSI)
      | some a2 =>
        match from_str_radix_u32 10 a2 with
        | none => .error .parseIntE
        | some slot =>
          match (splitSep ':' device_name.data).get? 3 with
          | none => .error (.parseBusInfo .SCSI)
          | some a3 =>
            match from_str_radix_u32 16 a3 with
            | none => .error .parseIntE
            | some fnum =>
              match (splitSep ':' device_name.data).get? 0 with
              | none => .error (.parseBusInfo .SCSI)
              | some a0 =>
                match from_str_i16 a0 with
                | none => .error .parseIntE
                | some bn =>
                  .ok (.SCSI, bn,
                    wadd32 (wadd32 (wshl32 sbus 8) (wshl32 slot 4)) fnum)

/-- `get_chip_bus_from_name` (src/src/chip.rs:177-283), producing the bus
type, bus number and address. -/
def get_chip_bus_from_name (subsys device_name : String)
    (adapterNameOf : Int → Option (Option String)) :
    Except ChipErr (BusType × Int × Nat) :=
  match subsys with
  | "i2c" => classify_i2c device_name adapterNameOf
  | "spi" => classify_spi device_name
  | "pci" => classify_pci device_name
  | "scsi" => classify_scsi device_name
  | "platform" => .ok (.ISA, 0, 0)
  | "of_platform" => .ok (.ISA, 0, 0)
  | "acpi" => .ok (.ACPI, 0, 0)
  | "hid" => .ok (.HID, 0, 0)
  | "mdio_bus" => .ok (.Mdio, 0, 0)
  | _ => .error .unknownDevice

/-- `Subfeature` (src/src/subfeature.rs:452-460).  The path is a string;
readability/writability are the owner permission bits captured at
discovery. -/
structure Subfeature where
  name : String
  path : String
  subfeature_type : SubfeatureType
  compute_statement : Option String
  is_readable : Bool
  is_writable : Bool
  deriving DecidableEq, Repr

/-- `FeatureError` (src/hwmon/src/error.rs): the feature/subfeature type
mismatch. -/
inductive FeatureErr where
  | SubfeatureType : FeatureErr
  deriving DecidableEq, Repr

/-- `Feature` (src/hwmon/src/feature.rs:58-65). -/
structure Feature where
  dir : String
  name : String
  number : Nat
  feature_type : FeatureType
  subfeatures : List Subfeature
  deriving DecidableEq, Repr

/-- `Feature::new` (src/hwmon/src/feature.rs:113-135). -/
def Feature.new (dir : String) (feature_type : FeatureType) (number : Nat) :
    Feature :=
  let name :=
    match feature_type with
    | .Voltage => "in" ++ decReprStr number
    | .Fan => "fan" ++ decReprStr number
    | .Pwm => "pwm" ++ decReprStr number
    | .Temperature => "temp" ++ decReprStr number
    | .Power => "power" ++ decReprStr number
    | .Energy => "energy" ++ decReprStr number
    | .Current => "curr" ++ decReprStr number
    | .Humidity => "humidity" ++ decReprStr number
    | .Cpu => "cpu" ++ decReprStr number ++ "_vid"
    | .Intrusion => "intrusion" ++ decReprStr number
    | .BeepEnable => "beep_enable"
  ⟨dir, name, number, feature_type, []⟩

/-- `Feature::push_subfeature` (src/hwmon/src/feature.rs:139-151): accept
the subfeature (appending it to the vector) exactly when its implied
feature type equals the feature's own type. -/
def Feature.push_subfeature (f : Feature) (sf : Subfeature) :
    Except FeatureErr Feature :=
  if FeatureType.from_sf sf.subfeature_type = f.feature_type then
    .ok { f with subfeatures := f.subfeatures ++ [sf] }
  else .error .SubfeatureType

/-- `Feature::subfeature` (src/hwmon/src/feature.rs:96-104): first stored
subfeature of the requested kind. -/
def Feature.subfeature (f : Feature) (t : SubfeatureType) : Option Subfeature :=
  f.subfeatures.find? (fun sf => decide (sf.subfeature_type = t))

/-- One directory entry seen by the discovery walk: the file's base name
and its owner read/write permission bits. -/
structure DirEntry where
  name : String
  is_readable : Bool
  is_writable : Bool
  deriving DecidableEq, Repr

/-- The `Subfeature` record built by `Subfeature::from_path`
(src/src/subfeature.rs:541-571) once the name has been classified. -/
def mkSubfeature (dir : String) (e : DirEntry) (t : SubfeatureType) :
    Subfeature :=
  ⟨e.name, dir ++ "/" ++ e.name, t, none, e.is_readable, e.is_writable⟩

/-- The chip's feature map `HashMap<(FeatureType, u32), Feature>`, as an
association list with unique keys. -/
abbrev FeatureMap : Type := List ((FeatureType × Nat) × Feature)

/-- `HashMap::get` on the feature map. -/
def lookupFeature (m : FeatureMap) (k : FeatureType × Nat) : Option Feature :=
  (m.find? (fun p => decide (p.1 = k))).map (fun p => p.2)

/-- Store a value under a key: replace the existing binding or append a new
one (the state after `HashMap::entry(k).or_insert_with(..)` mutation). -/
def insertFeature : FeatureMap → (FeatureType × Nat) → Feature → FeatureMap
  | [], k, f => [(k, f)]
  | p :: rest, k, f =>
    if p.1 = k then (k, f) :: rest else p :: insertFeature rest k f

/-- Outcome of `Chip::read_dynamic_chip` (src/src/chip.rs:146-174): the
final feature map, or one of the two reachable-in-principle panics —
the classifier's index-parse `.unwrap()` inside `Subfeature::from_path`,
or the `.unwrap()` on `push_subfeature`'s result. -/
inductive WalkResult where
  | ok : FeatureMap → WalkResult
  | panickedParse : WalkResult
  | panickedPush : WalkResult

/-- One iteration of the `read_dynamic_chip` loop for a directory entry:
classify the file name; on classification error skip the file; otherwise
get-or-create the feature keyed by `(FeatureType::from(kind), index)` and
push the subfeature, panicking if the push is rejected. -/
def read_dynamic_chip_step (dir : String) (m : FeatureMap) (e : DirEntry) :
    WalkResult :=
  match get_properties_from_name e.name with
  | .invalid => .ok m
  | .unknown => .ok m
  | .panicked => .panickedParse
  | .ok n t =>
    let ft := FeatureType.from_sf t
    let f :=
      match lookupFeature m (ft, n) with
      | some f => f
      | none => Feature.new dir ft n
    match f.push_subfeature (mkSubfeature dir e t) with
    | .error _ => .panickedPush
    | .ok f2 => .ok (insertFeature m (ft, n) f2)

/-- The `read_dynamic_chip` loop over the remaining directory entries. -/
def read_dynamic_chip_go (dir : String) (m : FeatureMap) :
    List DirEntry → WalkResult
  | [] => .ok m
  | e :: es =>
    match read_dynamic_chip_step dir m e with
    | .ok m2 => read_dynamic_chip_go dir m2 es
    | .panickedParse => .panickedParse
    | .panickedPush => .panickedPush

/-- `Chip::read_dynamic_chip` (src/src/chip.rs:146-174) over the chip
directory's regular-file entries, starting from the empty feature map. -/
def read_dynamic_chip (dir : String) (entries : List DirEntry) : WalkResult :=
  read_dynamic_chip_go dir [] entries

/-- Errors of `Subfeature::write_value` (src/src/subfeature.rs:509-517):
the not-writable access error, or an I/O failure from the open/write. -/
inductive WriteErr where
  | notWritable : WriteErr
  | ioError : WriteErr
  deriving DecidableEq, Repr

/-- File-system state: content of each path, `none` when absent. -/
abbrev FS : Type := String → Option String

/-- `Subfeature::write_sysfs_value` (src/src/subfeature.rs:531-539).
`raw` stands for the already-computed `(value * scale).round() as u32`
(the IEEE-754 `f64` computation itself is outside this embedding).  The
file is opened with `write(true).create(false)` and no truncation, so the
decimal text overwrites the start of the existing content. -/
def write_sysfs_value (sf : Subfeature) (raw : Nat) (fs : FS) :
    Except WriteErr Unit × FS :=
  match fs sf.path with
  | none => (.error .ioError, fs)
  | some old =>
    let s := decReprStr raw
    (.ok (), fun p => if p = sf.path then some (s ++ old.drop s.length) else fs p)

/-- `Subfeature::write_value` (src/src/subfeature.rs:509-517): guard on the
writable flag before any file access. -/
def write_value (sf : Subfeature) (raw : Nat) (fs : FS) :
    Except WriteErr Unit × FS :=
  if sf.is_writable then write_sysfs_value sf raw fs
  else (.error .notWritable, fs)

/-- Errors of the bus-adapter scan (src/src/error.rs `Error`). -/
inductive BusErr where
  | parseBusName : BusType → BusErr
  | parseIntE : BusErr
  | ioE : BusErr
  deriving DecidableEq, Repr

/-- `BusAdapter` (src/src/bus.rs:100-105). -/
structure BusAdapter where
  name : String
  bus_type : BusType
  bus_number : Int
  deriving DecidableEq, Repr

/-- `BusAdapter::from_sysfs_i2c` (src/src/bus.rs:108-134).  `nameAttr` is
the result of reading the class device's `name` attribute (falling back to
`device/name`): `none` when both reads failed. -/
def from_sysfs_i2c (classdev : String) (nameAttr : Option String) :
    Except BusErr (Option BusAdapter) :=
  if !(strStartsWith classdev "i2c-" && decide (classdev.length > 4)) then
    .error (.parseBusName .I2C)
  else
    match from_str_i16 (classdev.drop 4).data with
    | none => .error .parseIntE
    | some bn =>
      if bn = 9191 then .ok none
      else
        match nameAttr with
        | none => .error .ioE
        | some nm => .ok (some ⟨nm, .I2C, bn⟩)

/-- `read_sysfs_busses` (src/src/bus.rs:149-179) over the adapter
directory's entries (each entry: class-device name and the outcome of its
`name`-attribute read). -/
def read_sysfs_busses :
    List (String × Option String) → Except BusErr (List BusAdapter)
  | [] => .ok []
  | e :: rest =>
    match from_sysfs_i2c e.1 e.2 with
    | .error err => .error err
    | .ok none => read_sysfs_busses rest
    | .ok (some ad) => (read_sysfs_busses rest).map (fun l => ad :: l)

/-- `Bus::adapter_name` (src/src/bus.rs:71-97), over the context's adapter
list. -/
def adapter_name (bt : BusType) (bn : Int) (adapters : List BusAdapter) :
    Option String :=
  match bt with
  | .ISA => some "ISA adapter"
  | .PCI => some "PCI adapter"
  | .SPI => some "SPI adapter"
  | .Virtual => some "Virtual device"
  | .ACPI => some "ACPI interface"
  | .HID => some "HID adapter"
  | .Mdio => some "MDIO adapter"
  | .SCSI => some "SCSI adapter"
  | .I2C =>
    (adapters.find?
      (fun a => decide (a.bus_type = bt) && decide (a.bus_number = bn))).map
      (fun a => a.name)

/-- Modelled from the claim's wording (C1): the `<letters><digits>_<rest>`
shape — an alphabetic prefix, then digits, then an underscore.  This is the
shape the claim attributes to the classifier; the code's regex uses `\D*`
(any non-digits) instead. -/
def lettersShape (s : String) : Bool :=
  let a := s.data.takeWhile (fun c => c.isAlpha)
  let r1 := s.data.dropWhile (fun c => c.isAlpha)
  let d := r1.takeWhile (fun c => c.isDigit)
  let r2 := r1.dropWhile (fun c => c.isDigit)
  !a.isEmpty && !d.isEmpty && r2.head? == some '_'

/-- A sample classified subfeature (kind `Temperature::Input`), used to
exhibit duplicate pushes. -/
def sampleDupSf : Subfeature :=
  ⟨"temp1_input", "/c/temp1_input", .Temperature .Input, none, true, false⟩

/-- A `temp1` feature that already holds `sampleDupSf`. -/
def sampleDupFeature : Feature :=
  ⟨"/c", "temp1", 1, .Temperature, [sampleDupSf]⟩

/-! ### Helper lemmas -/

theorem digitsAux_stable (radix : Nat) (hr : 2 ≤ radix) :
    ∀ n fuel acc, n < fuel →
      digitsAux radix fuel n acc = digitsAux radix (n + 1) n [] ++ acc := by
  intro n
  induction n using Nat.strong_induction_on with
  | _ n ih =>
    intro fuel acc hfuel
    obtain ⟨f, rfl⟩ : ∃ f, fuel = f + 1 := ⟨fuel - 1, by omega⟩
    by_cases h : n < radix
    · simp [digitsAux, h]
    · have hdiv : n / radix < n := Nat.div_lt_self (by omega) (by omega)
      rw [digitsAux, if_neg h, digitsAux, if_neg h]
      rw [ih (n / radix) hdiv f _ (by omega), ih (n / radix) hdiv n _ (by omega)]
      simp

theorem decRepr_lt {n : Nat} (h : n < 10) : decRepr n = [Nat.digitChar n] := by
  simp [decRepr, digitsAux, h]

theorem decRepr_ge {n : Nat} (h : 10 ≤ n) :
    decRepr n = decRepr (n / 10) ++ [Nat.digitChar (n % 10)] := by
  have h10 : ¬ n < 10 := by omega
  rw [decRepr, digitsAux, if_neg h10,
    digitsAux_stable 10 (by omega) (n / 10) n _ (Nat.div_lt_self (by omega) (by omega))]
  rfl

theorem digitChar_lt_ten :
    ∀ d, d < 10 →
      (Nat.digitChar d).isDigit = true ∧ (Nat.digitChar d).toNat = 48 + d := by
  decide

theorem decRepr_all_digit (n : Nat) : ∀ c ∈ decRepr n, c.isDigit = true := by
  induction n using Nat.strong_induction_on with
  | _ n ih =>
    by_cases h : n < 10
    · rw [decRepr_lt h]
      intro c hc
      rw [List.mem_singleton] at hc
      subst hc
      exact (digitChar_lt_ten n h).1
    · rw [decRepr_ge (by omega)]
      intro c hc
      rcases List.mem_append.1 hc with hc | hc
      · exact ih (n / 10) (Nat.div_lt_self (by omega) (by omega)) c hc
      · rw [List.mem_singleton] at hc
        subst hc
        exact (digitChar_lt_ten (n % 10) (Nat.mod_lt n (by omega))).1

theorem decRepr_ne_nil (n : Nat) : decRepr n ≠ [] := by
  by_cases h : n < 10
  · rw [decRepr_lt h]; simp
  · rw [decRepr_ge (by omega)]; simp

theorem digitsVal_append (xs : List Char) (c : Char) :
    digitsVal (xs ++ [c]) = 10 * digitsVal xs + (c.toNat - 48) := by
  unfold digitsVal
  rw [List.foldl_append]
  rfl

theorem digitsVal_decRepr (n : Nat) : digitsVal (decRepr n) = n := by
  induction n using Nat.strong_induction_on with
  | _ n ih =>
    by_cases h : n < 10
    · rw [decRepr_lt h]
      have := (digitChar_lt_ten n h).2
      simp [digitsVal, this]
    · rw [decRepr_ge (by omega), digitsVal_append,
        ih (n / 10) (Nat.div_lt_self (by omega) (by omega)),
        (digitChar_lt_ten (n % 10) (Nat.mod_lt n (by omega))).2]
      omega

theorem takeWhile_append_all {α : Type} (p : α → Bool) (l₁ l₂ : List α)
    (h : ∀ a ∈ l₁, p a = true) :
    (l₁ ++ l₂).takeWhile p = l₁ ++ l₂.takeWhile p := by
  induction l₁ with
  | nil => simp
  | cons a l ihl =>
    have ha : p a = true := h a (by simp)
    simp only [List.cons_append, List.takeWhile_cons, ha, if_true]
    rw [ihl (fun b hb => h b (by simp [hb]))]

theorem dropWhile_append_all {α : Type} (p : α → Bool) (l₁ l₂ : List α)
    (h : ∀ a ∈ l₁, p a = true) :
    (l₁ ++ l₂).dropWhile p = l₂.dropWhile p := by
  induction l₁ with
  | nil => simp
  | cons a l ihl =>
    have ha : p a = true := h a (by simp)
    simp only [List.cons_append, List.dropWhile_cons, ha, if_true]
    exact ihl (fun b hb => h b (by simp [hb]))

theorem takeWhile_all {α : Type} (p : α → Bool) (l : List α)
    (h : ∀ a ∈ l, p a = true) : l.takeWhile p = l := by
  have := takeWhile_append_all p l [] h
  simpa using this

theorem splitSep_ne_nil (sep : Char) (l : List Char) : splitSep sep l ≠ [] := by
  cases l with
  | nil => simp [splitSep]
  | cons c cs =>
    rw [splitSep]
    by_cases h : c = sep
    · simp [h]
    · rw [if_neg h]
      cases hs : splitSep sep cs with
      | nil => simp
      | cons a b => simp

theorem splitSep_no_sep (sep : Char) (a : List Char) (h : ∀ c ∈ a, c ≠ sep) :
    splitSep sep a = [a] := by
  induction a with
  | nil => rfl
  | cons c cs ihc =>
    rw [splitSep, if_neg (h c (by simp)), ihc (fun x hx => h x (by simp [hx]))]

theorem splitSep_append (sep : Char) (a b : List Char)
    (h : ∀ c ∈ a, c ≠ sep) :
    splitSep sep (a ++ sep :: b) = a :: splitSep sep b := by
  induction a with
  | nil => simp [splitSep]
  | cons c cs ihc =>
    rw [List.cons_append, splitSep, if_neg (h c (by simp)),
      ihc (fun x hx => h x (by simp [hx]))]

theorem accDigits_chars (radix : Nat) :
    ∀ (s : List Char) (acc v : Nat), accDigits radix acc s = some v →
      ∀ c ∈ s, ∃ d, charDigit c = some d ∧ d < radix := by
  intro s
  induction s with
  | nil => intro _ _ _ c hc; simp at hc
  | cons c cs ihc =>
    intro acc v hv x hx
    cases hcd : charDigit c with
    | none =>
      simp only [accDigits, hcd] at hv
      exact Option.noConfusion hv
    | some d =>
      simp only [accDigits, hcd] at hv
      by_cases hd : d < radix
      · rw [if_pos hd] at hv
        rcases List.mem_cons.1 hx with rfl | hx
        · exact ⟨d, hcd, hd⟩
        · exact ihc _ v hv x hx
      · rw [if_neg hd] at hv; exact absurd hv (by simp)

theorem parseUnsignedRadix_chars (radix bound : Nat) (s : List Char) (v : Nat)
    (h : parseUnsignedRadix radix bound s = some v) :
    ∀ c ∈ s, ∃ d, charDigit c = some d ∧ d < radix := by
  unfold parseUnsignedRadix at h
  by_cases hs : s = []
  · rw [if_pos hs] at h; exact absurd h (by simp)
  · rw [if_neg hs] at h
    cases ha : accDigits radix 0 s with
    | none => rw [ha] at h; exact absurd h (by simp)
    | some w => exact accDigits_chars radix s 0 w ha

theorem from_str_radix_u32_chars (radix : Nat) (s : List Char) (v : Nat)
    (h : from_str_radix_u32 radix s = some v) :
    ∀ c ∈ s, c = '+' ∨ c = '-' ∨ ∃ d, charDigit c = some d ∧ d < radix := by
  intro c hc
  match s, hc with
  | c0 :: rest, hc =>
    rw [from_str_radix_u32] at h
    by_cases hplus : c0 = '+'
    · rw [if_pos hplus] at h
      rcases List.mem_cons.1 hc with rfl | hc
      · exact Or.inl hplus
      · exact Or.inr (Or.inr (parseUnsignedRadix_chars radix (2 ^ 32) rest v h c hc))
    · rw [if_neg hplus] at h
      by_cases hminus : c0 = '-'
      · rw [if_pos hminus] at h
        rcases List.mem_cons.1 hc with rfl | hc
        · exact Or.inr (Or.inl hminus)
        · cases hp : parseUnsignedRadix radix (2 ^ 32) rest with
          | none => rw [hp] at h; exact absurd h (by simp)
          | some w =>
            exact Or.inr (Or.inr (parseUnsignedRadix_chars radix (2 ^ 32) rest w hp c hc))
      · rw [if_neg hminus] at h
        exact Or.inr (Or.inr (parseUnsignedRadix_chars radix (2 ^ 32) (c0 :: rest) v h c hc))

theorem from_str_i16_chars (s : List Char) (v : Int)
    (h : from_str_i16 s = some v) :
    ∀ c ∈ s, c = '+' ∨ c = '-' ∨ ∃ d, charDigit c = some d ∧ d < 10 := by
  intro c hc
  match s, hc with
  | c0 :: rest, hc =>
    rw [from_str_i16] at h
    by_cases hplus : c0 = '+'
    · rw [if_pos hplus] at h
      rcases List.mem_cons.1 hc with rfl | hc
      · exact Or.inl hplus
      · cases hp : parseUnsignedRadix 10 32768 rest with
        | none => rw [hp] at h; exact absurd h (by simp)
        | some w => exact Or.inr (Or.inr (parseUnsignedRadix_chars 10 32768 rest w hp c hc))
    · rw [if_neg hplus] at h
      by_cases hminus : c0 = '-'
      · rw [if_pos hminus] at h
        rcases List.mem_cons.1 hc with rfl | hc
        · exact Or.inr (Or.inl hminus)
        · cases hp : parseUnsignedRadix 10 32769 rest with
          | none => rw [hp] at h; exact absurd h (by simp)
          | some w => exact Or.inr (Or.inr (parseUnsignedRadix_chars 10 32769 rest w hp c hc))
      · rw [if_neg hminus] at h
        cases hp : parseUnsignedRadix 10 32768 (c0 :: rest) with
        | none => rw [hp] at h; exact absurd h (by simp)
        | some w =>
          exact Or.inr (Or.inr (parseUnsignedRadix_chars 10 32768 (c0 :: rest) w hp c hc))

/-- A successfully parsed positive `i16` contains no minus sign. -/
theorem from_str_i16_pos_no_minus (s : List Char) (v : Int)
    (h : from_str_i16 s = some v) (hv : 0 < v) : ∀ c ∈ s, c ≠ '-' := by
  intro c hc
  match s, hc with
  | c0 :: rest, hc =>
    rw [from_str_i16] at h
    by_cases hplus : c0 = '+'
    · rw [if_pos hplus] at h
      rcases List.mem_cons.1 hc with rfl | hc
      · intro he; rw [he] at hplus; exact absurd hplus (by decide)
      · cases hp : parseUnsignedRadix 10 32768 rest with
        | none => rw [hp] at h; exact absurd h (by simp)
        | some w =>
          rcases parseUnsignedRadix_chars 10 32768 rest w hp c hc with ⟨d, hd, _⟩
          intro he; rw [he] at hd
          have hn : charDigit '-' = none := by decide
          rw [hn] at hd
          exact Option.noConfusion hd
    · rw [if_neg hplus] at h
      by_cases hminus : c0 = '-'
      · rw [if_pos hminus] at h
        cases hp : parseUnsignedRadix 10 32769 rest with
        | none => rw [hp] at h; exact absurd h (by simp)
        | some w =>
          rw [hp] at h
          have hv2 : -(w : Int) = v := by simpa using h
          omega
      · rw [if_neg hminus] at h
        rcases List.mem_cons.1 hc with rfl | hc
        · exact hminus
        · cases hp : parseUnsignedRadix 10 32768 (c0 :: rest) with
          | none => rw [hp] at h; exact absurd h (by simp)
          | some w =>
            rcases parseUnsignedRadix_chars 10 32768 (c0 :: rest) w hp c
              (by simp [hc]) with ⟨d, hd, _⟩
            intro he; rw [he] at hd
            have hn : charDigit '-' = none := by decide
            rw [hn] at hd
            exact Option.noConfusion hd

theorem nameShape_synth (A D R : List Char) (hA : ∀ c ∈ A, c.isDigit = false)
    (hD : D ≠ []) (hDd : ∀ c ∈ D, c.isDigit = true) :
    nameShape (A ++ D ++ '_' :: R) =
      some (A, D, R.takeWhile (fun c => c != '\n')) := by
  obtain ⟨d0, ds, rfl⟩ : ∃ d0 ds, D = d0 :: ds := by
    cases D with
    | nil => exact absurd rfl hD
    | cons a b => exact ⟨a, b, rfl⟩
  have hA' : ∀ c ∈ A, (!c.isDigit) = true := fun c hc => by rw [hA c hc]; rfl
  have hd0 : d0.isDigit = true := hDd d0 (by simp)
  have hnd0 : (!d0.isDigit) = false := by rw [hd0]; rfl
  have h1 : (A ++ (d0 :: ds) ++ '_' :: R).takeWhile (fun c => !c.isDigit) = A := by
    rw [List.append_assoc, takeWhile_append_all _ A _ hA', List.cons_append,
      List.takeWhile_cons, hnd0]
    simp
  have h2 : (A ++ (d0 :: ds) ++ '_' :: R).dropWhile (fun c => !c.isDigit) =
      (d0 :: ds) ++ '_' :: R := by
    rw [List.append_assoc, dropWhile_append_all _ A _ hA', List.cons_append,
      List.dropWhile_cons, hnd0]
    simp
  have h3 : ((d0 :: ds) ++ '_' :: R).takeWhile (fun c => c.isDigit) = d0 :: ds := by
    rw [takeWhile_append_all _ (d0 :: ds) _ hDd, List.takeWhile_cons]
    simp
  have h4 : ((d0 :: ds) ++ '_' :: R).dropWhile (fun c => c.isDigit) = '_' :: R := by
    rw [dropWhile_append_all _ (d0 :: ds) _ hDd, List.dropWhile_cons]
    simp
  simp only [nameShape, h1, h2, h3, h4]

theorem FTM_keys_nondigit :
    (FEATURE_TYPE_MAP.all (fun e => e.1.data.all (fun c => !c.isDigit))) = true := by
  decide

theorem FTM_sub_no_newline :
    (FEATURE_TYPE_MAP.all
      (fun e => e.2.2.all (fun kv => kv.1.data.all (fun c => c != '\n')))) = true := by
  decide

theorem lookupTable_mem {α : Type} {m : List (String × α)} {k : String} {v : α}
    (h : lookupTable m k = some v) : (k, v) ∈ m := by
  unfold lookupTable at h
  cases hf : m.find? (fun p => p.1 == k) with
  | none => rw [hf] at h; exact Option.noConfusion h
  | some q =>
    rw [hf] at h
    have hq : q ∈ m := List.mem_of_find?_eq_some hf
    have hpq := List.find?_some hf
    have hk : q.1 = k := eq_of_beq (by simpa using hpq)
    have hv : q.2 = v := by simpa using h
    have : (k, v) = q := by
      cases q
      simp only at hk hv
      rw [hk, hv]
    rw [this]
    exact hq

theorem ftm_key_nondigit {k : String} {v : FeatureType × List (String × SubfeatureType)}
    (h : (k, v) ∈ FEATURE_TYPE_MAP) : ∀ c ∈ k.data, c.isDigit = false := by
  have hall := List.all_eq_true.1 FTM_keys_nondigit (k, v) h
  simp only at hall
  intro c hc
  have := List.all_eq_true.1 hall c hc
  simpa using this

theorem ftm_sub_key_no_newline {k : String}
    {v : FeatureType × List (String × SubfeatureType)} {sk : String}
    {t : SubfeatureType} (h : (k, v) ∈ FEATURE_TYPE_MAP) (h2 : (sk, t) ∈ v.2) :
    ∀ c ∈ sk.data, (c != '\n') = true := by
  have hall := List.all_eq_true.1 FTM_sub_no_newline (k, v) h
  simp only at hall
  have hkv := List.all_eq_true.1 hall (sk, t) h2
  simp only at hkv
  intro c hc
  exact List.all_eq_true.1 hkv c hc

theorem classify_synth (pfx sfx : String) (ft : FeatureType)
    (tbl : List (String × SubfeatureType)) (t : SubfeatureType) (n : Nat)
    (h1 : lookupTable FEATURE_TYPE_MAP pfx = some (ft, tbl))
    (h2 : lookupTable tbl sfx = some t) (hn : n < 2 ^ 32) :
    get_properties_from_name (pfx ++ decReprStr n ++ "_" ++ sfx) = .ok n t := by
  have hmem1 := lookupTable_mem h1
  have hpfx : ∀ c ∈ pfx.data, c.isDigit = false := ftm_key_nondigit hmem1
  have hmem2 := lookupTable_mem h2
  have hsfx : ∀ c ∈ sfx.data, (c != '\n') = true :=
    ftm_sub_key_no_newline hmem1 hmem2
  have hdata : (pfx ++ decReprStr n ++ "_" ++ sfx).data =
      pfx.data ++ decRepr n ++ '_' :: sfx.data := by
    simp only [String.data_append, decReprStr]
    simp
  have hne : pfx ++ decReprStr n ++ "_" ++ sfx ≠ "beep_enable" := by
    intro he
    have hed : (pfx ++ decReprStr n ++ "_" ++ sfx).data = "beep_enable".data := by
      rw [he]
    rw [hdata] at hed
    obtain ⟨d0, ds, hd⟩ : ∃ d0 ds, decRepr n = d0 :: ds := by
      cases hdr : decRepr n with
      | nil => exact absurd hdr (decRepr_ne_nil n)
      | cons a b => exact ⟨a, b, rfl⟩
    have hd0dig : d0.isDigit = true :=
      decRepr_all_digit n d0 (by rw [hd]; simp)
    have hd0mem : d0 ∈ "beep_enable".data := by
      rw [← hed]
      simp [hd]
    have : ∀ c ∈ "beep_enable".data, c.isDigit = false := by decide
    rw [this d0 hd0mem] at hd0dig
    exact Bool.noConfusion hd0dig
  rw [get_properties_from_name, if_neg hne, hdata,
    nameShape_synth pfx.data (decRepr n) sfx.data hpfx (decRepr_ne_nil n)
      (decRepr_all_digit n),
    takeWhile_all _ sfx.data hsfx]
  have h1' : lookupTable FEATURE_TYPE_MAP (String.mk pfx.data) = some (ft, tbl) := h1
  have h2' : lookupTable tbl (String.mk sfx.data) = some t := h2
  simp only [digitsVal_decRepr, if_pos hn, h1', h2']

/-! ### Claim theorems -/

/-- C1 (amended).  For every recognized `(feature-prefix, subfeature-suffix)`
pair in the fixed lookup tables and every index `n < 2^32`, classifying
`<prefix><n>_<suffix>` yields exactly `(n, the table's SubfeatureType)`;
`"beep_enable"` classifies to `(0, BeepEnable)` before any table lookup;
every other string matching the code's `<non-digits><digits>_<rest>` shape
(the regex uses `\D*`, not letters) whose digit run fits in `u32` fails
with the Unknown error, and every string not matching that shape fails with
the Invalid error. -/
theorem C1_classifier_amended :
    (∀ (pfx sfx : String) (ft : FeatureType)
        (tbl : List (String × SubfeatureType)) (t : SubfeatureType) (n : Nat),
      lookupTable FEATURE_TYPE_MAP pfx = some (ft, tbl) →
      lookupTable tbl sfx = some t → n < 2 ^ 32 →
      get_properties_from_name (pfx ++ decReprStr n ++ "_" ++ sfx) = .ok n t)
    ∧ get_properties_from_name "beep_enable" = .ok 0 .BeepEnable
    ∧ (∀ (s : String) (a d r : List Char), s ≠ "beep_enable" →
        nameShape s.data = some (a, d, r) → digitsVal d < 2 ^ 32 →
        (lookupTable FEATURE_TYPE_MAP (String.mk a)).bind
          (fun e => lookupTable e.2 (String.mk r)) = none →
        get_properties_from_name s = .unknown)
    ∧ (∀ s : String, s ≠ "beep_enable" → nameShape s.data = none →
        get_properties_from_name s = .invalid) := by
  refine ⟨fun pfx sfx ft tbl t n h1 h2 hn => classify_synth pfx sfx ft tbl t n h1 h2 hn,
    rfl, ?_, ?_⟩
  · intro s a d r hne hshape hlt hnone
    rw [get_properties_from_name, if_neg hne, hshape]
    simp only [if_pos hlt]
    cases hl1 : lookupTable FEATURE_TYPE_MAP (String.mk a) with
    | none => rfl
    | some e =>
      rw [hl1] at hnone
      obtain ⟨eft, etbl⟩ := e
      simp only [Option.some_bind] at hnone
      simp [hnone]
  · intro s hne hshape
    rw [get_properties_from_name, if_neg hne, hshape]

/-- C1 witness: the recognized pair `("temp", "input")` with index 3
classifies `temp3_input` to `(3, Temperature Input)`. -/
theorem C1_classifier_witness :
    lookupTable FEATURE_TYPE_MAP "temp" = some (.Temperature, TEMPERATURE_MAP)
    ∧ lookupTable TEMPERATURE_MAP "input" = some (.Temperature .Input)
    ∧ (3 : Nat) < 2 ^ 32
    ∧ get_properties_from_name ("temp" ++ decReprStr 3 ++ "_" ++ "input") =
        .ok 3 (.Temperature .Input) :=
  ⟨rfl, rfl, by decide,
    C1_classifier_amended.1 "temp" "input" .Temperature TEMPERATURE_MAP
      (.Temperature .Input) 3 rfl rfl (by decide)⟩

/-- C1 counterexample: `"!0_input"` does not match the claim's
`<letters><digits>_<rest>` shape, yet the classifier fails with Unknown,
not Invalid — the code's regex prefix is `\D*` (any non-digits), not
letters. -/
theorem C1_classifier_counterexample :
    lettersShape "!0_input" = false
    ∧ get_properties_from_name "!0_input" = .unknown
    ∧ get_properties_from_name "!0_input" ≠ .invalid := by
  refine ⟨by decide, by decide, by decide⟩

/-- C9 (amended).  Classification is total and returns a result or error —
never panicking — for every name that either fails the
`<non-digits><digits>_<rest>` shape or whose digit run's value fits in
`u32`; when the shape matches but the digit run exceeds `u32::MAX`, the
index parse `.unwrap()` panics. -/
theorem C9_classifier_total_amended :
    (∀ s : String, nameShape s.data = none →
      get_properties_from_name s ≠ .panicked)
    ∧ (∀ (s : String) (a d r : List Char), nameShape s.data = some (a, d, r) →
        digitsVal d < 2 ^ 32 → get_properties_from_name s ≠ .panicked) := by
  constructor
  · intro s hshape
    rw [get_properties_from_name]
    by_cases hbe : s = "beep_enable"
    · rw [if_pos hbe]; exact fun h => ClassifyResult.noConfusion h
    · rw [if_neg hbe, hshape]
      exact fun h => ClassifyResult.noConfusion h
  · intro s a d r hshape hlt
    rw [get_properties_from_name]
    by_cases hbe : s = "beep_enable"
    · rw [if_pos hbe]; exact fun h => ClassifyResult.noConfusion h
    · rw [if_neg hbe, hshape]
      simp only [if_pos hlt]
      cases hl1 : lookupTable FEATURE_TYPE_MAP (String.mk a) with
      | none => simp
      | some e =>
        obtain ⟨eft, etbl⟩ := e
        dsimp only
        cases hl2 : lookupTable etbl (String.mk r) with
        | none => simp
        | some t => simp

/-- C9 witness: `"beep"` fails the shape (no digit run), and indeed
classifying it does not panic. -/
theorem C9_classifier_total_witness :
    nameShape "beep".data = none
    ∧ get_properties_from_name "beep" ≠ .panicked :=
  ⟨by decide, C9_classifier_total_amended.1 "beep" (by decide)⟩

/-- C9 counterexample: the digit run of `"temp4294967296_input"` parses to
`2^32`, which overflows `u32`, and the classifier panics instead of
returning an error. -/
theorem C9_classifier_total_counterexample :
    get_properties_from_name "temp4294967296_input" = .panicked := by
  decide

theorem parsed_radix_ne (radix : Nat) (s : List Char) (v : Nat)
    (h : from_str_radix_u32 radix s = some v) (x : Char)
    (hx : charDigit x = none) (hp : x ≠ '+') (hm : x ≠ '-') :
    ∀ c ∈ s, c ≠ x := by
  intro c hc
  rcases from_str_radix_u32_chars radix s v h c hc with rfl | rfl | ⟨d, hd, _⟩
  · exact fun he => hp he.symm
  · exact fun he => hm he.symm
  · intro he
    rw [he, hx] at hd
    exact Option.noConfusion hd

theorem getq0 {α : Type} (x : α) (l : List α) : (x :: l).get? 0 = some x := rfl

theorem getq1 {α : Type} (x y : α) (l : List α) :
    (x :: y :: l).get? 1 = some y := rfl

theorem getq2 {α : Type} (x y z : α) (l : List α) :
    (x :: y :: z :: l).get? 2 = some z := rfl

theorem getLast3 {α : Type} (x y z : α) : ([x, y, z]).getLast? = some z := rfl

/-- C3.  The canonical chip display name follows the exact per-bus-type
format, field widths and zero-padding: ISA and PCI pad the address to 4 hex
digits, I2C prints the bus number and a 2-hex-digit address (with the
literal `i2C` infix the code emits), SPI/HID/SCSI include the bus number,
and ACPI/MDIO/Virtual do not. -/
theorem C3_chip_name_format :
    chip_name "coretemp" .ISA 0 0x2a = "coretemp-isa-002a"
    ∧ chip_name "lm75" .I2C 2 0x48 = "lm75-i2C-2-48"
    ∧ chip_name "x" .PCI 0 0x2a = "x-pci-002a"
    ∧ chip_name "p" .SPI 7 1 = "p-spi-7-1"
    ∧ chip_name "p" .HID 7 1 = "p-hid-7-1"
    ∧ chip_name "p" .SCSI 7 1 = "p-scsi-7-1"
    ∧ chip_name "p" .ACPI 7 1 = "p-acpi-1"
    ∧ chip_name "p" .Mdio 7 1 = "p-mdio-1"
    ∧ chip_name "p" .Virtual 7 255 = "p-virtual-ff"
    ∧ (∀ (p : String) (n : Int) (a : Nat),
        chip_name p .ISA n a = p ++ "-isa-" ++ padZero 4 (hexStr a)
        ∧ chip_name p .PCI n a = p ++ "-pci-" ++ padZero 4 (hexStr a)
        ∧ chip_name p .I2C n a =
            p ++ "-i2C-" ++ intStr n ++ "-" ++ padZero 2 (hexStr a)
        ∧ chip_name p .SPI n a = p ++ "-spi-" ++ intStr n ++ "-" ++ hexStr a
        ∧ chip_name p .HID n a = p ++ "-hid-" ++ intStr n ++ "-" ++ hexStr a
        ∧ chip_name p .SCSI n a = p ++ "-scsi-" ++ intStr n ++ "-" ++ hexStr a
        ∧ chip_name p .ACPI n a = p ++ "-acpi-" ++ hexStr a
        ∧ chip_name p .Mdio n a = p ++ "-mdio-" ++ hexStr a
        ∧ chip_name p .Virtual n a = p ++ "-virtual-" ++ hexStr a) := by
  refine ⟨by decide, by decide, by decide, by decide, by decide, by decide,
    by decide, by decide, by decide, ?_⟩
  intro p n a
  exact ⟨rfl, rfl, rfl, rfl, rfl, rfl, rfl, rfl, rfl⟩

/-- C4 (amended).  A PCI device name `<domain>:<bus>:<slot>.<function>`
whose four hex fields parse as `u32` values classifies as PCI with bus
number 0 and composite address
`(domain<<16) + (bus<<8) + (slot<<3) + function` (with `u32` wrapping);
in particular `"0000:00:1f.3"` resolves to address `0xfb` — not `0xf83`,
since `(0x1f <<< 3) + 0x3 = 0xf8 + 3 = 0xfb`. -/
theorem C4_pci_address_amended :
    (∀ (d b s f : String) (vd vb vs vf : Nat)
        (oracle : Int → Option (Option String)),
      from_str_radix_u32 16 d.data = some vd →
      from_str_radix_u32 16 b.data = some vb →
      from_str_radix_u32 16 s.data = some vs →
      from_str_radix_u32 16 f.data = some vf →
      get_chip_bus_from_name "pci" (d ++ ":" ++ b ++ ":" ++ s ++ "." ++ f)
          oracle =
        .ok (.PCI, 0, (vd * 2 ^ 16 + vb * 2 ^ 8 + vs * 2 ^ 3 + vf) % 2 ^ 32))
    ∧ (∀ oracle : Int → Option (Option String),
        get_chip_bus_from_name "pci" "0000:00:1f.3" oracle =
          .ok (.PCI, 0, 0xfb)) := by
  constructor
  · intro d b s f vd vb vs vf oracle hd hb hs hf
    have hdc : ∀ c ∈ d.data, c ≠ ':' :=
      parsed_radix_ne 16 d.data vd hd ':' (by decide) (by decide) (by decide)
    have hbc : ∀ c ∈ b.data, c ≠ ':' :=
      parsed_radix_ne 16 b.data vb hb ':' (by decide) (by decide) (by decide)
    have hsc : ∀ c ∈ s.data, c ≠ ':' :=
      parsed_radix_ne 16 s.data vs hs ':' (by decide) (by decide) (by decide)
    have hsd : ∀ c ∈ s.data, c ≠ '.' :=
      parsed_radix_ne 16 s.data vs hs '.' (by decide) (by decide) (by decide)
    have hfc : ∀ c ∈ f.data, c ≠ ':' :=
      parsed_radix_ne 16 f.data vf hf ':' (by decide) (by decide) (by decide)
    have hfd : ∀ c ∈ f.data, c ≠ '.' :=
      parsed_radix_ne 16 f.data vf hf '.' (by decide) (by decide) (by decide)
    have hdata : (d ++ ":" ++ b ++ ":" ++ s ++ "." ++ f).data =
        d.data ++ ':' :: (b.data ++ ':' :: (s.data ++ '.' :: f.data)) := by
      simp [String.data_append]
    have hno : ∀ c ∈ s.data ++ '.' :: f.data, c ≠ ':' := by
      intro c hc
      rcases List.mem_append.1 hc with hc | hc
      · exact hsc c hc
      · rcases List.mem_cons.1 hc with rfl | hc
        · decide
        · exact hfc c hc
    have hsplit : splitSep ':'
        (d.data ++ ':' :: (b.data ++ ':' :: (s.data ++ '.' :: f.data))) =
        [d.data, b.data, s.data ++ '.' :: f.data] := by
      rw [splitSep_append ':' d.data _ hdc, splitSep_append ':' b.data _ hbc,
        splitSep_no_sep ':' _ hno]
    have hbis : splitSep '.' (s.data ++ '.' :: f.data) = [s.data, f.data] := by
      rw [splitSep_append '.' s.data f.data hsd, splitSep_no_sep '.' f.data hfd]
    have haddr :
        wadd32 (wadd32 (wadd32 (wshl32 vd 16) (wshl32 vb 8)) (wshl32 vs 3)) vf =
          (vd * 2 ^ 16 + vb * 2 ^ 8 + vs * 2 ^ 3 + vf) % 2 ^ 32 := by
      unfold wadd32 wshl32
      omega
    have hstep : get_chip_bus_from_name "pci"
        (d ++ ":" ++ b ++ ":" ++ s ++ "." ++ f) oracle =
        classify_pci (d ++ ":" ++ b ++ ":" ++ s ++ "." ++ f) := rfl
    rw [hstep, classify_pci]
    simp only [hdata, hsplit, hbis, getLast3, getq0, getq1, hd, hb, hs, hf, haddr]
  · intro oracle
    rfl

/-- C4 witness: the universal formula applied to the fields of
`"0000:00:1f.3"` gives `(0 * 2^16 + 0 * 2^8 + 0x1f * 2^3 + 3) % 2^32 =
0xfb`. -/
theorem C4_pci_address_witness :
    from_str_radix_u32 16 "0000".data = some 0
    ∧ from_str_radix_u32 16 "00".data = some 0
    ∧ from_str_radix_u32 16 "1f".data = some 0x1f
    ∧ from_str_radix_u32 16 "3".data = some 3
    ∧ get_chip_bus_from_name "pci" ("0000" ++ ":" ++ "00" ++ ":" ++ "1f" ++ "." ++ "3")
        (fun _ => none) =
      .ok (.PCI, 0, (0 * 2 ^ 16 + 0 * 2 ^ 8 + 0x1f * 2 ^ 3 + 3) % 2 ^ 32) :=
  ⟨rfl, rfl, rfl, rfl,
    C4_pci_address_amended.1 "0000" "00" "1f" "3" 0 0 0x1f 3
      (fun _ => none) rfl rfl rfl rfl⟩

/-- C4 counterexample: `"0000:00:1f.3"` resolves to address `0xfb`, not the
claimed `0xf83`. -/
theorem C4_pci_address_counterexample :
    get_chip_bus_from_name "pci" "0000:00:1f.3" (fun _ => none) =
      .ok (.PCI, 0, 0xfb)
    ∧ (0xfb : Nat) ≠ 0xf83 :=
  ⟨rfl, by decide⟩

/-- C5.  An i2c device name `<bus_number>-<hex_address>` whose bus-number
field parses to 9191 classifies as legacy ISA with bus number reset to 0,
with the address still taken from the hex field; no adapter-name file is
consulted on this path. -/
theorem C5_i2c_legacy_isa :
    ∀ (ns addr : String) (v : Nat) (oracle : Int → Option (Option String)),
      from_str_i16 ns.data = some 9191 →
      from_str_radix_u32 16 addr.data = some v →
      (∀ c ∈ addr.data, c ≠ '-') →
      get_chip_bus_from_name "i2c" (ns ++ "-" ++ addr) oracle =
        .ok (.ISA, 0, v) := by
  intro ns addr v oracle h1 h2 haddr
  have hns : ∀ c ∈ ns.data, c ≠ '-' :=
    from_str_i16_pos_no_minus ns.data 9191 h1 (by decide)
  have hdata : (ns ++ "-" ++ addr).data = ns.data ++ '-' :: addr.data := by
    simp [String.data_append]
  have hsplit : splitSep '-' (ns.data ++ '-' :: addr.data) =
      [ns.data, addr.data] := by
    rw [splitSep_append '-' ns.data addr.data hns,
      splitSep_no_sep '-' addr.data haddr]
  have hstep : get_chip_bus_from_name "i2c" (ns ++ "-" ++ addr) oracle =
      classify_i2c (ns ++ "-" ++ addr) oracle := rfl
  rw [hstep, classify_i2c]
  simp only [hdata, hsplit, getq0, getq1, h1, h2, if_pos]

/-- C5 witness: the device name `"9191-0048"` resolves to the ISA bus with
address `0x48`. -/
theorem C5_i2c_legacy_isa_witness :
    from_str_i16 "9191".data = some 9191
    ∧ from_str_radix_u32 16 "0048".data = some 0x48
    ∧ ("9191" ++ "-" ++ "0048" : String) = "9191-0048"
    ∧ get_chip_bus_from_name "i2c" ("9191" ++ "-" ++ "0048") (fun _ => none) =
        .ok (.ISA, 0, 0x48) :=
  ⟨rfl, rfl, rfl,
    C5_i2c_legacy_isa "9191" "0048" 0x48 (fun _ => none) rfl rfl
      (by decide)⟩

theorem push_err_iff (f : Feature) (sf : Subfeature) :
    f.push_subfeature sf = .error .SubfeatureType ↔
      FeatureType.from_sf sf.subfeature_type ≠ f.feature_type := by
  rw [Feature.push_subfeature]
  by_cases h : FeatureType.from_sf sf.subfeature_type = f.feature_type
  · rw [if_pos h]
    constructor
    · intro he; exact Except.noConfusion he
    · intro hne; exact absurd h hne
  · rw [if_neg h]
    constructor
    · intro _; exact h
    · intro _; rfl

theorem push_ok (f : Feature) (sf : Subfeature)
    (h : FeatureType.from_sf sf.subfeature_type = f.feature_type) :
    f.push_subfeature sf = .ok { f with subfeatures := f.subfeatures ++ [sf] } := by
  rw [Feature.push_subfeature, if_pos h]

theorem feature_new_type (dir : String) (ft : FeatureType) (n : Nat) :
    (Feature.new dir ft n).feature_type = ft := by
  cases ft <;> rfl

theorem lookupFeature_type {m : FeatureMap} {k : FeatureType × Nat} {f : Feature}
    (hinv : ∀ p ∈ m, p.2.feature_type = p.1.1)
    (h : lookupFeature m k = some f) : f.feature_type = k.1 := by
  unfold lookupFeature at h
  cases hf : m.find? (fun p => decide (p.1 = k)) with
  | none => rw [hf] at h; exact Option.noConfusion h
  | some q =>
    rw [hf] at h
    have hq : q ∈ m := List.mem_of_find?_eq_some hf
    have hk := List.find?_some hf
    have hk2 : q.1 = k := of_decide_eq_true hk
    have hv : q.2 = f := by simpa using h
    rw [← hv, hinv q hq, hk2]

theorem insertFeature_inv (k : FeatureType × Nat) (f : Feature) :
    ∀ m : FeatureMap, (∀ p ∈ m, p.2.feature_type = p.1.1) →
      f.feature_type = k.1 →
      ∀ p ∈ insertFeature m k f, p.2.feature_type = p.1.1 := by
  intro m
  induction m with
  | nil =>
    intro _ hf p hp
    rw [insertFeature] at hp
    rw [List.mem_singleton] at hp
    subst hp
    exact hf
  | cons q rest ih =>
    intro hinv hf p hp
    rw [insertFeature] at hp
    by_cases hq : q.1 = k
    · rw [if_pos hq] at hp
      rcases List.mem_cons.1 hp with rfl | hp
      · exact hf
      · exact hinv p (List.mem_cons_of_mem q hp)
    · rw [if_neg hq] at hp
      rcases List.mem_cons.1 hp with rfl | hp
      · exact hinv p (List.mem_cons_self p rest)
      · exact ih (fun r hr => hinv r (List.mem_cons_of_mem q hr)) hf p hp

theorem step_no_push_panic (dir : String) (m : FeatureMap) (e : DirEntry)
    (hinv : ∀ p ∈ m, p.2.feature_type = p.1.1) :
    read_dynamic_chip_step dir m e ≠ .panickedPush
    ∧ ∀ m2, read_dynamic_chip_step dir m e = .ok m2 →
        ∀ p ∈ m2, p.2.feature_type = p.1.1 := by
  cases hcl : get_properties_from_name e.name with
  | invalid =>
    constructor
    · intro h
      simp only [read_dynamic_chip_step, hcl] at h
      exact WalkResult.noConfusion h
    · intro m2 h
      simp only [read_dynamic_chip_step, hcl, WalkResult.ok.injEq] at h
      subst h
      exact hinv
  | unknown =>
    constructor
    · intro h
      simp only [read_dynamic_chip_step, hcl] at h
      exact WalkResult.noConfusion h
    · intro m2 h
      simp only [read_dynamic_chip_step, hcl, WalkResult.ok.injEq] at h
      subst h
      exact hinv
  | panicked =>
    constructor
    · intro h
      simp only [read_dynamic_chip_step, hcl] at h
      exact WalkResult.noConfusion h
    · intro m2 h
      simp only [read_dynamic_chip_step, hcl] at h
      exact WalkResult.noConfusion h
  | ok n t =>
    cases hl : lookupFeature m (FeatureType.from_sf t, n) with
    | some f0 =>
      have hft : f0.feature_type = FeatureType.from_sf t :=
        lookupFeature_type hinv hl
      have hpush := push_ok f0 (mkSubfeature dir e t) hft.symm
      constructor
      · intro h
        simp only [read_dynamic_chip_step, hcl, hl, hpush] at h
        exact WalkResult.noConfusion h
      · intro m2 h
        simp only [read_dynamic_chip_step, hcl, hl, hpush,
          WalkResult.ok.injEq] at h
        subst h
        exact insertFeature_inv (FeatureType.from_sf t, n) _ m hinv hft
    | none =>
      have hft : (Feature.new dir (FeatureType.from_sf t) n).feature_type =
          FeatureType.from_sf t := feature_new_type dir (FeatureType.from_sf t) n
      have hpush := push_ok (Feature.new dir (FeatureType.from_sf t) n)
        (mkSubfeature dir e t) hft.symm
      constructor
      · intro h
        simp only [read_dynamic_chip_step, hcl, hl, hpush] at h
        exact WalkResult.noConfusion h
      · intro m2 h
        simp only [read_dynamic_chip_step, hcl, hl, hpush,
          WalkResult.ok.injEq] at h
        subst h
        exact insertFeature_inv (FeatureType.from_sf t, n) _ m hinv hft

theorem walk_go_no_push_panic (dir : String) :
    ∀ (es : List DirEntry) (m : FeatureMap),
      (∀ p ∈ m, p.2.feature_type = p.1.1) →
      read_dynamic_chip_go dir m es ≠ .panickedPush := by
  intro es
  induction es with
  | nil =>
    intro m _ h
    rw [read_dynamic_chip_go] at h
    exact WalkResult.noConfusion h
  | cons e es ih =>
    intro m hinv h
    rw [read_dynamic_chip_go] at h
    obtain ⟨hnp, hok⟩ := step_no_push_panic dir m e hinv
    cases hs : read_dynamic_chip_step dir m e with
    | ok m2 =>
      simp only [hs] at h
      exact ih m2 (hok m2 hs) h
    | panickedParse =>
      simp only [hs] at h
      exact WalkResult.noConfusion h
    | panickedPush => exact hnp hs

/-- C6.  `write_value` on a non-writable subfeature fails with the access
error and leaves the file-system state untouched (the file is neither
opened nor written); conversely the file system can change only when the
subfeature is writable. -/
theorem C6_write_not_writable :
    (∀ (sf : Subfeature) (raw : Nat) (fs : FS), sf.is_writable = false →
      write_value sf raw fs = (.error .notWritable, fs))
    ∧ (∀ (sf : Subfeature) (raw : Nat) (fs : FS),
        (write_value sf raw fs).2 ≠ fs → sf.is_writable = true) := by
  constructor
  · intro sf raw fs h
    simp [write_value, h]
  · intro sf raw fs hne
    cases hb : sf.is_writable with
    | true => rfl
    | false =>
      exfalso
      exact hne (by simp [write_value, hb])

/-- C6 witness: a concrete read-only subfeature; writing fails with the
access error and the concrete file system is returned unchanged. -/
theorem C6_write_not_writable_witness :
    (⟨"temp1_max", "/c/temp1_max", .Temperature .Max, none, true, false⟩ :
        Subfeature).is_writable = false
    ∧ write_value
        (⟨"temp1_max", "/c/temp1_max", .Temperature .Max, none, true, false⟩ :
          Subfeature) 95
        (fun _ => some "95000") =
      (.error .notWritable, fun _ => some "95000") :=
  ⟨rfl, C6_write_not_writable.1
    ⟨"temp1_max", "/c/temp1_max", .Temperature .Max, none, true, false⟩ 95
    (fun _ => some "95000") rfl⟩

/-- C7.  `push_subfeature` fails (with the invariant-violation error)
exactly when the feature type implied by the subfeature kind differs from
the feature's own type — a failure the discovery walk turns into a panic
via `.unwrap()`; and because the walk keys every classified subfeature by
`FeatureType::from(kind)`, that panic is unreachable: the walk never hits
the push-error branch for any entry list. -/
theorem C7_push_mismatch_walk_safe :
    (∀ (f : Feature) (sf : Subfeature),
      f.push_subfeature sf = .error .SubfeatureType ↔
        FeatureType.from_sf sf.subfeature_type ≠ f.feature_type)
    ∧ (∀ (dir : String) (entries : List DirEntry),
        read_dynamic_chip dir entries ≠ .panickedPush) := by
  constructor
  · exact push_err_iff
  · intro dir entries
    exact walk_go_no_push_panic dir entries []
      (fun p hp => absurd hp (List.not_mem_nil p))

/-- C8 (amended).  `push_subfeature` enforces only the feature-type
invariant: any subfeature whose implied feature type matches the feature's
is accepted and appended — including one whose kind is already present, so
duplicate kinds are not rejected and per-kind uniqueness is not an
invariant of `push_subfeature`. -/
theorem C8_push_duplicate_amended :
    ∀ (f : Feature) (sf : Subfeature),
      FeatureType.from_sf sf.subfeature_type = f.feature_type →
      f.push_subfeature sf =
        .ok { f with subfeatures := f.subfeatures ++ [sf] } := by
  intro f sf h
  rw [Feature.push_subfeature, if_pos h]

/-- C8 witness: pushing a `Temperature::Input` subfeature onto a feature
that already contains one of the same kind succeeds and appends it. -/
theorem C8_push_duplicate_witness :
    FeatureType.from_sf sampleDupSf.subfeature_type =
      sampleDupFeature.feature_type
    ∧ sampleDupFeature.push_subfeature sampleDupSf =
        .ok { sampleDupFeature with
              subfeatures := sampleDupFeature.subfeatures ++ [sampleDupSf] } :=
  ⟨rfl, C8_push_duplicate_amended sampleDupFeature sampleDupSf rfl⟩

/-- C8 counterexample: a feature holding one `Temperature::Input`
subfeature accepts a second subfeature of the very same kind, ending with
two of that kind — the push is not rejected. -/
theorem C8_push_duplicate_counterexample :
    sampleDupFeature.subfeatures.countP
        (fun x => decide (x.subfeature_type = .Temperature .Input)) = 1
    ∧ (sampleDupFeature.push_subfeature sampleDupSf).map
        (fun f2 => f2.subfeatures.countP
          (fun x => decide (x.subfeature_type = .Temperature .Input))) =
      .ok 2 :=
  ⟨rfl, rfl⟩

theorem from_sysfs_i2c_ok_some (classdev : String) (na : Option String)
    (ad : BusAdapter) (h : from_sysfs_i2c classdev na = .ok (some ad)) :
    ad.bus_type = .I2C ∧ ad.bus_number ≠ 9191 := by
  rw [from_sysfs_i2c] at h
  cases hb : strStartsWith classdev "i2c-" && decide (classdev.length > 4) with
  | false =>
    rw [hb] at h
    simp at h
  | true =>
    rw [hb] at h
    simp only [Bool.not_true, Bool.false_eq_true, if_false] at h
    cases hp : from_str_i16 (classdev.drop 4).data with
    | none => rw [hp] at h; simp at h
    | some bn =>
      simp only [hp] at h
      by_cases h9 : bn = 9191
      · rw [if_pos h9] at h
        simp at h
      · rw [if_neg h9] at h
        cases na with
        | none => simp at h
        | some nm =>
          simp only [Except.ok.injEq, Option.some.injEq] at h
          subst h
          exact ⟨rfl, h9⟩

theorem read_busses_inv :
    ∀ (entries : List (String × Option String)) (l : List BusAdapter),
      read_sysfs_busses entries = .ok l →
      ∀ ad ∈ l, ad.bus_type = .I2C ∧ ad.bus_number ≠ 9191 := by
  intro entries
  induction entries with
  | nil =>
    intro l h ad had
    rw [read_sysfs_busses] at h
    have hl : ([] : List BusAdapter) = l := by simpa using h
    rw [← hl] at had
    exact absurd had (List.not_mem_nil ad)
  | cons e rest ih =>
    intro l h ad had
    rw [read_sysfs_busses] at h
    cases hf : from_sysfs_i2c e.1 e.2 with
    | error err => rw [hf] at h; exact Except.noConfusion h
    | ok oad =>
      rw [hf] at h
      cases oad with
      | none => exact ih l h ad had
      | some ad0 =>
        cases hr : read_sysfs_busses rest with
        | error err => rw [hr] at h; exact Except.noConfusion h
        | ok l0 =>
          rw [hr] at h
          have hl : ad0 :: l0 = l := by simpa [Except.map] using h
          rw [← hl] at had
          rcases List.mem_cons.1 had with rfl | had
          · exact from_sysfs_i2c_ok_some e.1 e.2 ad hf
          · exact ih l0 hr ad had

theorem adapter_name_9191_none (l : List BusAdapter)
    (h : ∀ ad ∈ l, ad.bus_number ≠ 9191) :
    adapter_name .I2C 9191 l = none := by
  rw [adapter_name]
  rw [List.find?_eq_none.2 (fun ad had => by simp [h ad had])]
  rfl

/-- C10.  Every adapter collected by the sysfs bus scan has bus type I2C
and a bus number different from 9191 (the legacy-ISA number is filtered out
before the adapter is added), so an I2C bus with number 9191 never finds an
adapter name through the context. -/
theorem C10_adapters_i2c_only :
    (∀ (entries : List (String × Option String)) (l : List BusAdapter),
      read_sysfs_busses entries = .ok l →
      ∀ ad ∈ l, ad.bus_type = .I2C ∧ ad.bus_number ≠ 9191)
    ∧ (∀ (entries : List (String × Option String)) (l : List BusAdapter),
        read_sysfs_busses entries = .ok l →
        adapter_name .I2C 9191 l = none) := by
  constructor
  · exact read_busses_inv
  · intro entries l h
    exact adapter_name_9191_none l
      (fun ad had => (read_busses_inv entries l h ad had).2)

/-- C10 witness: a scan over the single class device `i2c-0` yields one
I2C adapter with bus number 0, and a 9191 lookup finds nothing. -/
theorem C10_adapters_i2c_only_witness :
    read_sysfs_busses [("i2c-0", some "SMBus")] = .ok [⟨"SMBus", .I2C, 0⟩]
    ∧ (∀ ad ∈ ([⟨"SMBus", .I2C, 0⟩] : List BusAdapter),
        ad.bus_type = .I2C ∧ ad.bus_number ≠ 9191)
    ∧ adapter_name .I2C 9191 [⟨"SMBus", .I2C, 0⟩] = none :=
  ⟨rfl, C10_adapters_i2c_only.1 [("i2c-0", some "SMBus")] _ rfl,
    C10_adapters_i2c_only.2 [("i2c-0", some "SMBus")] _ rfl⟩

end Hw
